import Mathlib

/-!
Verification of the marketing-dashboard data core: a shallow embedding of
`src/server/utils/dataFormatter.js` (merge / totals / metrics), the API
middleware `cachedRequest` (cache + retry), and the row-formatting steps of
the Google Ads / Facebook Ads fetchers, together with theorems settling the
specification claims about them.

Modelling conventions:
* JavaScript numbers appearing in the formatter are exact values here:
  integer-valued results of `parseInt` are `Option Int` (with `none` for
  `NaN`), currency values are `Option ℚ`.  The special values produced by
  dividing by zero are captured by the `JNum` type (`nan`, `posInf`,
  `negInf`).
* `Number.prototype.toFixed(2)` is modelled by exact decimal rounding
  (nearest, ties away from zero, per the ECMAScript algorithm applied to the
  magnitude); the inputs in all claims are exactly representable.
* JavaScript `Map` is an insertion-ordered association list; `set` on an
  existing key updates the value in place.
* `new Date(s)` is modelled for ISO `YYYY-MM-DD` strings (the format all
  claims use); every other string, and a missing value, yields an invalid
  date, exactly as the calendar-validating ISO path of the ECMAScript parser
  does.  `toLocaleDateString` on an invalid date is the literal string
  `"Invalid Date"`.
-/

set_option autoImplicit false

namespace Dashboard

/-! ### JavaScript primitive models -/

/-- Value of a list of decimal digit characters. -/
def natFromDigits (ds : List Char) : Nat :=
  ds.foldl (fun n c => n * 10 + (c.toNat - '0'.toNat)) 0

/-- `parseInt(s)` (radix 10): skip leading whitespace, optional sign, then the
longest prefix of decimal digits; `none` models `NaN`. -/
def parseIntJs (s : String) : Option Int :=
  let cs := s.data.dropWhile Char.isWhitespace
  let signed : Int × List Char :=
    match cs with
    | '-' :: rest => (-1, rest)
    | '+' :: rest => (1, rest)
    | _ => (1, cs)
  let ds := signed.2.takeWhile Char.isDigit
  if ds.isEmpty then none else some (signed.1 * (natFromDigits ds : Int))

/-- `parseFloat(s)`: skip leading whitespace, optional sign, decimal digits
with an optional fractional part; `none` models `NaN`.  (Exponent notation
and `Infinity` literals are not used by the inputs of this code base and are
not modelled.) -/
def parseFloatJs (s : String) : Option ℚ :=
  let cs := s.data.dropWhile Char.isWhitespace
  let signed : ℚ × List Char :=
    match cs with
    | '-' :: rest => (-1, rest)
    | '+' :: rest => (1, rest)
    | _ => (1, cs)
  let intDs := signed.2.takeWhile Char.isDigit
  let rest := signed.2.drop intDs.length
  let fracDs : List Char :=
    match rest with
    | '.' :: r => r.takeWhile Char.isDigit
    | _ => []
  if intDs.isEmpty && fracDs.isEmpty then none
  else
    some (signed.1 *
      ((natFromDigits intDs : ℚ) + (natFromDigits fracDs : ℚ) / (10 ^ fracDs.length : ℚ)))

/-- Remove the first occurrence of a character, the behaviour of
`String.prototype.replace(c, '')` with a single-character string pattern. -/
def removeFirstChar (c : Char) : List Char → List Char
  | [] => []
  | x :: xs => if x = c then xs else x :: removeFirstChar c xs

/-- `s.replace(c, '')` for a one-character pattern: only the first occurrence
is removed. -/
def jsReplaceOnce (s : String) (c : Char) : String :=
  ⟨removeFirstChar c s.data⟩

/-- `x || 0` applied to a possibly-`NaN` integer-valued number. -/
def intOr0 (x : Option Int) : Int := x.getD 0

/-- `x || 0` applied to a possibly-`NaN` currency value. -/
def ratOr0 (x : Option ℚ) : ℚ := x.getD 0

/-- A JavaScript double as produced by the metric divisions: a finite exact
value, `NaN`, or a signed infinity. -/
inductive JNum where
  | num (q : ℚ)
  | nan
  | posInf
  | negInf
deriving DecidableEq, Repr

/-- JavaScript division of two finite numbers: `0/0 = NaN`,
`x/0 = ±Infinity` for `x ≠ 0`. -/
def jsDiv (a b : ℚ) : JNum :=
  if b = 0 then
    if a = 0 then .nan else if 0 < a then .posInf else .negInf
  else .num (a / b)

/-- Multiplication of a JavaScript number by a positive finite constant
(used only with `c = 100`): `NaN` and the infinities are preserved. -/
def jsMulPos (x : JNum) (c : ℚ) : JNum :=
  match x with
  | .num q => .num (q * c)
  | .nan => .nan
  | .posInf => .posInf
  | .negInf => .negInf

/-- Zero-pad a remainder below 100 to two digits. -/
def pad2 (n : Nat) : String :=
  if n < 10 then "0" ++ toString n else toString n

/-- `q.toFixed(2)` for a finite value: round the magnitude to the nearest
hundredth, ties away from zero (the ECMAScript `ToFixed` choice). -/
def qToFixed2 (q : ℚ) : String :=
  let m : Nat := (Int.floor (|q| * 100 + 1/2)).toNat
  (if q < 0 then "-" else "") ++ toString (m / 100) ++ "." ++ pad2 (m % 100)

/-- `x.toFixed(2)` on a JavaScript number: `NaN` and infinities stringify to
their names. -/
def jsToFixed2 : JNum → String
  | .num q => qToFixed2 q
  | .nan => "NaN"
  | .posInf => "Infinity"
  | .negInf => "-Infinity"

/-! ### JavaScript `Map` as an insertion-ordered association list -/

/-- `map.get(k)` (also standing in for `map.has(k)` via `Option.isSome`). -/
def mapGet {β : Type} (m : List (String × β)) (k : String) : Option β :=
  (m.find? (fun p => decide (p.1 = k))).map Prod.snd

/-- `map.has(k)`. -/
def mapHas {β : Type} (m : List (String × β)) (k : String) : Bool :=
  m.any (fun p => decide (p.1 = k))

/-- `map.set(k, v)`: update in place if the key is present (JS `Map`
preserves the original insertion position), otherwise append. -/
def mapSet {β : Type} (m : List (String × β)) (k : String) (v : β) :
    List (String × β) :=
  if mapHas m k then m.map (fun p => if p.1 = k then (k, v) else p)
  else m ++ [(k, v)]

/-- `map.delete(k)`. -/
def mapDelete {β : Type} (m : List (String × β)) (k : String) :
    List (String × β) :=
  m.filter (fun p => decide (p.1 ≠ k))

/-- `Array.from(map.values())`. -/
def mapValues {β : Type} (m : List (String × β)) : List β :=
  m.map Prod.snd

/-! ### Calendar dates (`new Date` / `toLocaleDateString`) -/

structure DateYMD where
  year : Nat
  month : Nat
  day : Nat
deriving DecidableEq, Repr

def isLeapYear (y : Nat) : Bool :=
  (y % 4 == 0 && y % 100 != 0) || y % 400 == 0

def daysInMonth (y m : Nat) : Nat :=
  if m == 2 then (if isLeapYear y then 29 else 28)
  else if m == 4 || m == 6 || m == 9 || m == 11 then 30
  else 31

/-- Parse an ISO `YYYY-MM-DD` string, validating the calendar (the
ECMAScript date-time string format used by `new Date`); any other shape is
an invalid date. -/
def parseIsoDate (s : String) : Option DateYMD :=
  match s.data with
  | [y1, y2, y3, y4, '-', m1, m2, '-', d1, d2] =>
    if ([y1, y2, y3, y4, m1, m2, d1, d2].all Char.isDigit) then
      let y := natFromDigits [y1, y2, y3, y4]
      let m := natFromDigits [m1, m2]
      let d := natFromDigits [d1, d2]
      if 1 ≤ m && m ≤ 12 && 1 ≤ d && d ≤ daysInMonth y m then
        some ⟨y, m, d⟩
      else none
    else none
  | _ => none

/-- `new Date(s)` where `s` may be `undefined`; `none` is an Invalid Date. -/
def jsNewDate (s : Option String) : Option DateYMD :=
  match s with
  | none => none
  | some str => parseIsoDate str

/-- Sakamoto's day-of-week algorithm; `0` is Sunday. -/
def dayOfWeek (dt : DateYMD) : Nat :=
  let t := [0, 3, 2, 5, 0, 3, 5, 1, 4, 6, 2, 4]
  let y := if dt.month < 3 then dt.year - 1 else dt.year
  (y + y / 4 - y / 100 + y / 400 + t.getD (dt.month - 1) 0 + dt.day) % 7

def weekdayShortName (w : Nat) : String :=
  ["Sun", "Mon", "Tue", "Wed", "Thu", "Fri", "Sat"].getD w "Sun"

def monthShortName (m : Nat) : String :=
  ["Jan", "Feb", "Mar", "Apr", "May", "Jun",
   "Jul", "Aug", "Sep", "Oct", "Nov", "Dec"].getD (m - 1) "Jan"

/-- `date.toLocaleDateString('en-US', \x7b weekday: 'short', month: 'short',
day: 'numeric', year: 'numeric' \x7d)`; an Invalid Date stringifies to
`"Invalid Date"`. -/
def toLocaleDateStringUS : Option DateYMD → String
  | none => "Invalid Date"
  | some dt =>
    weekdayShortName (dayOfWeek dt) ++ ", " ++ monthShortName dt.month ++ " "
      ++ toString dt.day ++ ", " ++ toString dt.year

/-! ### `src/server/utils/dataFormatter.js` -/

/-- The per-day row shape produced by the platform fetchers and consumed by
`mergeAndFormatData` (fields `Date`, `Clicks`, `Impressions`, `Avg_CPC`,
`Cost`, all strings). -/
structure PlatformRow where
  Date : String
  Clicks : String
  Impressions : String
  Avg_CPC : String
  Cost : String
deriving DecidableEq, Repr

/-- One merged per-day record of `dailyData`. -/
structure MergedRow where
  Date : String
  Google_Clicks : String
  Google_Impressions : String
  Google_CPC : String
  Google_Cost : String
  Facebook_Clicks : String
  Facebook_Impressions : String
  Facebook_CPC : String
  Facebook_Cost : String
deriving DecidableEq, Repr

/-- Entry seeded from a Google row (Facebook side zeroed). -/
def googleEntry (row : PlatformRow) : MergedRow :=
  { Date := row.Date
    Google_Clicks := row.Clicks
    Google_Impressions := row.Impressions
    Google_CPC := row.Avg_CPC
    Google_Cost := row.Cost
    Facebook_Clicks := "0"
    Facebook_Impressions := "0"
    Facebook_CPC := "$0.00"
    Facebook_Cost := "$0.00" }

/-- In-place update of an existing entry with a Facebook row. -/
def facebookUpdate (existing : MergedRow) (row : PlatformRow) : MergedRow :=
  { existing with
    Facebook_Clicks := row.Clicks
    Facebook_Impressions := row.Impressions
    Facebook_CPC := row.Avg_CPC
    Facebook_Cost := row.Cost }

/-- Entry created from a Facebook row (Google side zeroed). -/
def facebookEntry (row : PlatformRow) : MergedRow :=
  { Date := row.Date
    Google_Clicks := "0"
    Google_Impressions := "0"
    Google_CPC := "$0.00"
    Google_Cost := "$0.00"
    Facebook_Clicks := row.Clicks
    Facebook_Impressions := row.Impressions
    Facebook_CPC := row.Avg_CPC
    Facebook_Cost := row.Cost }

/-- One step of the Google pass: `dataByDate.set(row.Date, ...)`. -/
def googleStep (m : List (String × MergedRow)) (row : PlatformRow) :
    List (String × MergedRow) :=
  mapSet m row.Date (googleEntry row)

/-- One step of the Facebook pass: update the existing entry for a shared
date, create a fresh zero-Google entry otherwise. -/
def facebookStep (m : List (String × MergedRow)) (row : PlatformRow) :
    List (String × MergedRow) :=
  match mapGet m row.Date with
  | some existing => mapSet m row.Date (facebookUpdate existing row)
  | none => mapSet m row.Date (facebookEntry row)

/-- The `dataByDate` map of `mergeAndFormatData`: seed with the Google rows,
then walk the Facebook rows, updating entries for shared dates and creating
new entries otherwise. -/
def buildDataByDate (googleData facebookData : List PlatformRow) :
    List (String × MergedRow) :=
  facebookData.foldl facebookStep (googleData.foldl googleStep [])

/-- Numeric sort key of a merged row's date, the value the comparator
`new Date(a.Date) - new Date(b.Date)` compares by (any strictly monotone
reparametrisation of the time value gives the same order; an unparseable
date, whose `NaN` comparison leaves the JS order unspecified, is keyed 0). -/
def mergedDateKey (r : MergedRow) : Nat :=
  ((parseIsoDate r.Date).map (fun d => d.year * 10000 + d.month * 100 + d.day)).getD 0

/-- The comparator's order on merged rows. -/
def mergedLe (a b : MergedRow) : Prop :=
  mergedDateKey a ≤ mergedDateKey b

instance : DecidableRel mergedLe := fun a b =>
  inferInstanceAs (Decidable (mergedDateKey a ≤ mergedDateKey b))

instance : IsTotal MergedRow mergedLe :=
  ⟨fun a b => Nat.le_total (mergedDateKey a) (mergedDateKey b)⟩

instance : IsTrans MergedRow mergedLe :=
  ⟨fun _ _ _ => Nat.le_trans⟩

/-- Accumulator of `calculateTotals` (the six summed fields). -/
structure TotalsAcc where
  Google_Clicks : Int
  Google_Impressions : Int
  Google_Cost : ℚ
  Facebook_Clicks : Int
  Facebook_Impressions : Int
  Facebook_Cost : ℚ
deriving DecidableEq, Repr

/-- One day's contribution inside the `forEach` of `calculateTotals`:
`parseInt(x) || 0` for clicks, `parseInt(x.replace(',', '')) || 0` for
impressions, `parseFloat(x.replace('$', '')) || 0` for cost. -/
def totalsStep (acc : TotalsAcc) (day : MergedRow) : TotalsAcc :=
  { Google_Clicks := acc.Google_Clicks + intOr0 (parseIntJs day.Google_Clicks)
    Google_Impressions :=
      acc.Google_Impressions + intOr0 (parseIntJs (jsReplaceOnce day.Google_Impressions ','))
    Google_Cost := acc.Google_Cost + ratOr0 (parseFloatJs (jsReplaceOnce day.Google_Cost '$'))
    Facebook_Clicks := acc.Facebook_Clicks + intOr0 (parseIntJs day.Facebook_Clicks)
    Facebook_Impressions :=
      acc.Facebook_Impressions + intOr0 (parseIntJs (jsReplaceOnce day.Facebook_Impressions ','))
    Facebook_Cost :=
      acc.Facebook_Cost + ratOr0 (parseFloatJs (jsReplaceOnce day.Facebook_Cost '$')) }

/-- The totals object: the six per-platform sums plus the combined totals. -/
structure Totals extends TotalsAcc where
  Total_Clicks : Int
  Total_Impressions : Int
  Total_Cost : ℚ
deriving DecidableEq, Repr

def calculateTotals (data : List MergedRow) : Totals :=
  let totals := data.foldl totalsStep
    { Google_Clicks := 0, Google_Impressions := 0, Google_Cost := 0,
      Facebook_Clicks := 0, Facebook_Impressions := 0, Facebook_Cost := 0 }
  { totals with
    Total_Clicks := totals.Google_Clicks + totals.Facebook_Clicks
    Total_Impressions := totals.Google_Impressions + totals.Facebook_Impressions
    Total_Cost := totals.Google_Cost + totals.Facebook_Cost }

structure Metrics where
  Google_CTR : String
  Google_Avg_CPC : String
  Facebook_CTR : String
  Facebook_Avg_CPC : String
  Overall_CTR : String
  Overall_Avg_CPC : String
deriving DecidableEq, Repr

/-- `calculateMetrics`: the unguarded divisions
`(clicks / impressions * 100).toFixed(2) + '%'` and
`'$' + (cost / clicks).toFixed(2)`. -/
def calculateMetrics (totals : Totals) : Metrics :=
  { Google_CTR :=
      jsToFixed2 (jsMulPos (jsDiv (totals.Google_Clicks : ℚ) (totals.Google_Impressions : ℚ)) 100) ++ "%"
    Google_Avg_CPC :=
      "$" ++ jsToFixed2 (jsDiv totals.Google_Cost (totals.Google_Clicks : ℚ))
    Facebook_CTR :=
      jsToFixed2 (jsMulPos (jsDiv (totals.Facebook_Clicks : ℚ) (totals.Facebook_Impressions : ℚ)) 100) ++ "%"
    Facebook_Avg_CPC :=
      "$" ++ jsToFixed2 (jsDiv totals.Facebook_Cost (totals.Facebook_Clicks : ℚ))
    Overall_CTR :=
      jsToFixed2 (jsMulPos (jsDiv (totals.Total_Clicks : ℚ) (totals.Total_Impressions : ℚ)) 100) ++ "%"
    Overall_Avg_CPC :=
      "$" ++ jsToFixed2 (jsDiv totals.Total_Cost (totals.Total_Clicks : ℚ)) }

/-- The object returned by `mergeAndFormatData`. -/
structure MergedOutput where
  dailyData : List MergedRow
  totals : Totals
  metrics : Metrics
deriving DecidableEq, Repr

/-- `mergeAndFormatData(googleData, facebookData)`: build the date-keyed
map, sort its values with the date comparator (JS `sort` with a consistent
comparator is a stable comparison sort, modelled by `insertionSort`), then
compute totals and metrics. -/
def mergeAndFormatData (googleData facebookData : List PlatformRow) : MergedOutput :=
  let combinedData :=
    List.insertionSort mergedLe (mapValues (buildDataByDate googleData facebookData))
  let totals := calculateTotals combinedData
  { dailyData := combinedData
    totals := totals
    metrics := calculateMetrics totals }

/-! ### `apiMiddleware.js` — `cachedRequest` -/

/-- A failed HTTP attempt: `status` is `error.response?.status` (absent for
network errors and timeouts), plus the error message. -/
structure HttpError where
  status : Option Nat
  message : String
deriving DecidableEq, Repr

/-- One cache entry: `\x7b data, expiry, timestamp \x7d`. -/
structure CacheEntry (α : Type) where
  data : α
  expiry : Nat
  timestamp : Nat
deriving DecidableEq, Repr

/-- The module-level `cache` map. -/
abbrev CacheMap (α : Type) := List (String × CacheEntry α)

/-- The options object of `cachedRequest`, with its defaults. -/
structure RequestOptions where
  url : String
  params : Option (List (String × String))
  cacheKey : Option String
  cacheTTL : Nat := 15 * 60 * 1000
  maxRetries : Nat := 3
  retryDelay : Nat := 1000
  forceRefresh : Bool := false

/-- `JSON.stringify` of a flat object with string values, keys in insertion
order. -/
def jsonStringifyParams (params : List (String × String)) : String :=
  "\x7b" ++ String.intercalate ","
    (params.map (fun p => "\"" ++ p.1 ++ "\":\"" ++ p.2 ++ "\"")) ++ "\x7d"

/-- The cache key actually used: the given one when truthy (a non-empty
string), otherwise the fingerprint `url + ':' + JSON.stringify(params ||
\x7b\x7d)`. -/
def effectiveCacheKey (opts : RequestOptions) : String :=
  match opts.cacheKey with
  | some k =>
    if k = "" then opts.url ++ ":" ++ jsonStringifyParams (opts.params.getD [])
    else k
  | none => opts.url ++ ":" ++ jsonStringifyParams (opts.params.getD [])

/-- `status && status >= 400 && status < 500 && status !== 429`: a
non-retryable client error. -/
def isFatalClientError (e : HttpError) : Bool :=
  match e.status with
  | some s => decide (400 ≤ s) && decide (s < 500) && decide (s ≠ 429)
  | none => false

/-- The `while (attempt < maxRetries)` retry loop, phrased by recursion on
the remaining attempt budget `maxRetries - attempt` (the loop guard
`attempt < maxRetries` is exactly `remaining > 0`).  `net i` is the outcome
of the `i`-th network attempt (0-based).  Returns the number of attempts
performed together with either the successful payload or the `lastError`
thrown after the loop (`none` models the initial `null`).  The backoff
delays do not affect the observable outcome and are not modelled. -/
def attemptLoop {α : Type} (net : Nat → Except HttpError α) :
    Nat → Nat → Option HttpError → Nat × Except (Option HttpError) α
  | 0, attempt, lastError => (attempt, .error lastError)
  | remaining + 1, attempt, lastError =>
    match net attempt with
    | .ok d => (attempt + 1, .ok d)
    | .error e =>
      if isFatalClientError e then (attempt + 1, .error (some e))
      else attemptLoop net remaining (attempt + 1) (some e)

/-- Observable outcome of one `cachedRequest` invocation: the returned or
thrown value, the cache afterwards, and how many network attempts ran. -/
structure RequestOutcome (α : Type) where
  result : Except (Option HttpError) α
  cache : CacheMap α
  networkCalls : Nat

/-- The network phase of `cachedRequest` (the body after the cache check):
run the retry loop from attempt 0 with `lastError = null`; on success store
the response in `c` under the effective key with `expiry = now + cacheTTL`
and `timestamp = now`; on failure throw the last error and leave `c`
untouched. -/
def runNetworkOutcome {α : Type} (opts : RequestOptions) (net : Nat → Except HttpError α)
    (now : Nat) (c : CacheMap α) : RequestOutcome α :=
  match attemptLoop net opts.maxRetries 0 none with
  | (calls, .ok d) =>
    { result := .ok d
      cache := mapSet c (effectiveCacheKey opts)
        { data := d, expiry := now + opts.cacheTTL, timestamp := now }
      networkCalls := calls }
  | (calls, .error e) =>
    { result := .error e, cache := c, networkCalls := calls }

/-- `cachedRequest`: consult the cache unless `forceRefresh` (returning a
live entry, lazily deleting an expired one), then run the retry loop; a
successful response is stored with `expiry = now + cacheTTL`.  `now` is the
value of `Date.now()` during the invocation (an invocation is atomic with
respect to the clock; only the delays between attempts would advance it, and
they do not change any of the observable fields). -/
def cachedRequest {α : Type} (opts : RequestOptions) (net : Nat → Except HttpError α)
    (now : Nat) (cache : CacheMap α) : RequestOutcome α :=
  let key := effectiveCacheKey opts
  if opts.forceRefresh then runNetworkOutcome opts net now cache
  else
    match mapGet cache key with
    | some entry =>
      if now < entry.expiry then
        { result := .ok entry.data, cache := cache, networkCalls := 0 }
      else runNetworkOutcome opts net now (mapDelete cache key)
    | none => runNetworkOutcome opts net now cache

/-! ### Row formatting of the fetchers (the Normalizer)

`fetchGoogleAdsData` (googleAdsService) and `fetchFacebookAdsData`
(facebookService) map each raw upstream row to the dashboard shape.  A
field that is absent upstream is `none`; an expression on which JavaScript
would throw a `TypeError` (calling `.toString()` on `undefined`) is an
`Except.error`. -/

/-- A raw Google Ads API row (`row.segments.date`, `row.metrics.*`; the
metric fields are numbers). -/
structure GoogleRawRow where
  date : Option String
  clicks : Option Int
  impressions : Option Int
  average_cpc : Option ℚ
  cost_micros : Option ℚ
deriving DecidableEq, Repr

/-- `x.toString()` on a number that may be `undefined`: throws then. -/
def jsNumToString (x : Option Int) : Except String String :=
  match x with
  | some n => .ok (toString n)
  | none => .error "TypeError: Cannot read properties of undefined"

/-- `s.slice(-3)`: the last three characters. -/
def lastThree (s : String) : String :=
  ⟨s.data.drop (s.data.length - 3)⟩

/-- `impressions > 999 ? Math.floor(impressions / 1000) + ',' +
impressions.toString().slice(-3) : impressions.toString()` for the Google
row, whose `impressions` is a raw number: `undefined > 999` is false, and
`undefined.toString()` throws. -/
def formatGoogleImpressions (x : Option Int) : Except String String :=
  match x with
  | some n =>
    .ok (if 999 < n then toString (n / 1000) ++ "," ++ lastThree (toString n)
         else toString n)
  | none => .error "TypeError: Cannot read properties of undefined"

/-- `(x / 1000000).toFixed(2)`: division of `undefined` yields `NaN`. -/
def microsToFixed (x : Option ℚ) : String :=
  jsToFixed2 (match x with | none => JNum.nan | some q => JNum.num (q / 1000000))

/-- The `results.map(row => ...)` body of `fetchGoogleAdsData`. -/
def formatGoogleRow (row : GoogleRawRow) : Except String PlatformRow := do
  let formattedDate := toLocaleDateStringUS (jsNewDate row.date)
  let impressionsStr ← formatGoogleImpressions row.impressions
  let cost := microsToFixed row.cost_micros
  let clicksStr ← jsNumToString row.clicks
  pure { Date := formattedDate
         Clicks := clicksStr
         Impressions := impressionsStr
         Avg_CPC := "$" ++ microsToFixed row.average_cpc
         Cost := "$" ++ cost }

/-- The whole formatting pass of `fetchGoogleAdsData` (a thrown `TypeError`
aborts the `map`). -/
def formatGoogleRows (rows : List GoogleRawRow) : Except String (List PlatformRow) :=
  rows.mapM formatGoogleRow

/-- A raw Facebook insights row (all metric fields arrive as strings). -/
structure FacebookRawRow where
  date_start : Option String
  date_stop : Option String
  campaign_name : Option String
  clicks : Option String
  impressions : Option String
  cpc : Option String
  spend : Option String
deriving DecidableEq, Repr

/-- The formatted Facebook Ads row (`Clicks`/`Impressions`/`Avg_CPC`/`Cost`
are the dashboard strings; the lowercase fields are the parsed numbers, with
`none` for `NaN`). -/
structure FacebookAdsRow where
  Date : String
  date_start : Option String
  date_stop : Option String
  campaign_name : String
  Clicks : String
  clicks : Option Int
  Impressions : String
  impressions : Option Int
  Avg_CPC : String
  cpc : Option ℚ
  Cost : String
  spend : Option ℚ
  engagement : Option Int
deriving DecidableEq, Repr

/-- `parseInt(x)` where `x` may be `undefined` (then `NaN`). -/
def parseIntUndef (s : Option String) : Option Int :=
  match s with
  | some str => parseIntJs str
  | none => none

/-- `parseFloat(x || 0)`: `undefined` and the empty string are falsy and
fall back to the number `0`; any other string is parsed (possibly to
`NaN`). -/
def parseFloatOrZero (s : Option String) : Option ℚ :=
  match s with
  | some str => if str = "" then some 0 else parseFloatJs str
  | none => some 0

/-- The impressions formatting of the Facebook row, whose `impressions`
comes out of `parseInt`: `NaN > 999` is false and `NaN.toString()` is
`"NaN"`. -/
def formatFacebookImpressions (x : Option Int) : String :=
  match x with
  | some n =>
    if 999 < n then toString (n / 1000) ++ "," ++ lastThree (toString n)
    else toString n
  | none => "NaN"

/-- `x.toFixed(2)` on a parseFloat result (`NaN` for `none`). -/
def optToFixed2 (x : Option ℚ) : String :=
  jsToFixed2 (match x with | none => JNum.nan | some q => JNum.num q)

/-- `Math.round(parseInt(clicks) * 1.8)` (`NaN` propagates; `Math.round`
is floor of `x + 0.5`). -/
def estimateEngagement (clicks : Option Int) : Option Int :=
  match clicks with
  | some n => some (Int.floor ((n : ℚ) * (9 / 5) + 1 / 2))
  | none => none

/-- `row.campaign_name || "Marfinetz Plumbing Campaign"` (empty string is
falsy). -/
def campaignNameOrDefault (s : Option String) : String :=
  match s with
  | some str => if str = "" then "Marfinetz Plumbing Campaign" else str
  | none => "Marfinetz Plumbing Campaign"

/-- `x.toString()` on a string that may be `undefined`: identity on a
string, a thrown `TypeError` on `undefined`. -/
def jsStrToString (x : Option String) : Except String String :=
  match x with
  | some s => .ok s
  | none => .error "TypeError: Cannot read properties of undefined"

/-- The `data.map(row => ...)` body of `fetchFacebookAdsData`. -/
def formatFacebookRow (row : FacebookRawRow) : Except String FacebookAdsRow := do
  let formattedDate := toLocaleDateStringUS (jsNewDate row.date_start)
  let impressions := parseIntUndef row.impressions
  let formattedImpressions := formatFacebookImpressions impressions
  let campaignName := campaignNameOrDefault row.campaign_name
  let clicksStr ← jsStrToString row.clicks
  pure { Date := formattedDate
         date_start := row.date_start
         date_stop := row.date_stop
         campaign_name := campaignName
         Clicks := clicksStr
         clicks := parseIntUndef row.clicks
         Impressions := formattedImpressions
         impressions := impressions
         Avg_CPC := "$" ++ optToFixed2 (parseFloatOrZero row.cpc)
         cpc := parseFloatOrZero row.cpc
         Cost := "$" ++ optToFixed2 (parseFloatOrZero row.spend)
         spend := parseFloatOrZero row.spend
         engagement := estimateEngagement (parseIntUndef row.clicks) }

/-- The whole formatting pass of `fetchFacebookAdsData`. -/
def formatFacebookRows (rows : List FacebookRawRow) :
    Except String (List FacebookAdsRow) :=
  rows.mapM formatFacebookRow

/-! ### Lemmas about the `Map` model -/

section MapLemmas

variable {β : Type}

/-- The keys, in insertion order. -/
def mapKeys (m : List (String × β)) : List String :=
  m.map Prod.fst

theorem mapGet_nil (k : String) : mapGet ([] : List (String × β)) k = none := rfl

theorem mapGet_cons (p : String × β) (m : List (String × β)) (k : String) :
    mapGet (p :: m) k = if p.1 = k then some p.2 else mapGet m k := by
  by_cases h : p.1 = k <;> simp [mapGet, List.find?_cons, h]

theorem mapHas_cons (p : String × β) (m : List (String × β)) (k : String) :
    mapHas (p :: m) k = (decide (p.1 = k) || mapHas m k) := by
  simp [mapHas]

theorem mapGet_append (m l : List (String × β)) (k : String) :
    mapGet (m ++ l) k =
      match mapGet m k with
      | some v => some v
      | none => mapGet l k := by
  induction m with
  | nil => simp [mapGet]
  | cons p m ih =>
    by_cases h : p.1 = k <;> simp [mapGet_cons, h, ih]

theorem mapGet_overwrite_ne (m : List (String × β)) (k : String) (v : β) (q : String)
    (h : q ≠ k) :
    mapGet (m.map (fun p => if p.1 = k then (k, v) else p)) q = mapGet m q := by
  induction m with
  | nil => rfl
  | cons p m ih =>
    by_cases hp : p.1 = k
    · rw [List.map_cons, if_pos hp, mapGet_cons, mapGet_cons, if_neg (Ne.symm h),
        if_neg (by rw [hp]; exact Ne.symm h), ih]
    · rw [List.map_cons, if_neg hp, mapGet_cons, mapGet_cons, ih]

theorem mapGet_overwrite_self (m : List (String × β)) (k : String) (v : β)
    (h : mapHas m k = true) :
    mapGet (m.map (fun p => if p.1 = k then (k, v) else p)) k = some v := by
  induction m with
  | nil => simp [mapHas] at h
  | cons p m ih =>
    by_cases hp : p.1 = k
    · rw [List.map_cons, if_pos hp, mapGet_cons, if_pos rfl]
    · rw [mapHas_cons] at h
      have h2 : mapHas m k = true := by simpa [hp] using h
      rw [List.map_cons, if_neg hp, mapGet_cons, if_neg hp, ih h2]

theorem mapHas_false_get (m : List (String × β)) (k : String) (h : mapHas m k = false) :
    mapGet m k = none := by
  induction m with
  | nil => rfl
  | cons p m ih =>
    rw [mapHas_cons] at h
    simp only [Bool.or_eq_false_iff, decide_eq_false_iff_not] at h
    rw [mapGet_cons, if_neg h.1, ih h.2]

theorem mapGet_mapSet_self (m : List (String × β)) (k : String) (v : β) :
    mapGet (mapSet m k v) k = some v := by
  unfold mapSet
  by_cases h : mapHas m k = true
  · rw [if_pos h, mapGet_overwrite_self m k v h]
  · rw [if_neg h, mapGet_append]
    rw [mapHas_false_get m k (by simpa using h)]
    simp [mapGet_cons]

theorem mapGet_mapSet_ne (m : List (String × β)) (k : String) (v : β) (q : String)
    (h : q ≠ k) :
    mapGet (mapSet m k v) q = mapGet m q := by
  unfold mapSet
  by_cases hh : mapHas m k = true
  · rw [if_pos hh, mapGet_overwrite_ne m k v q h]
  · rw [if_neg hh, mapGet_append]
    cases hq : mapGet m q with
    | some w => simp
    | none => simp [mapGet_cons, Ne.symm h, mapGet_nil]

theorem mapGet_mapDelete_self (m : List (String × β)) (k : String) :
    mapGet (mapDelete m k) k = none := by
  induction m with
  | nil => rfl
  | cons p m ih =>
    by_cases hp : p.1 = k
    · simpa [mapDelete, List.filter_cons, hp] using ih
    · simpa [mapDelete, List.filter_cons, hp, mapGet_cons] using ih

theorem mapGet_mapDelete_ne (m : List (String × β)) (k : String) (q : String) (h : q ≠ k) :
    mapGet (mapDelete m k) q = mapGet m q := by
  induction m with
  | nil => rfl
  | cons p m ih =>
    by_cases hp : p.1 = k
    · simpa [mapDelete, List.filter_cons, hp, mapGet_cons, Ne.symm h] using ih
    · by_cases hq : p.1 = q
      · simp [mapDelete, List.filter_cons, hp, mapGet_cons, hq, h]
      · simpa [mapDelete, List.filter_cons, hp, mapGet_cons, hq] using ih

theorem mapGet_eq_some_mem (m : List (String × β)) (k : String) (v : β)
    (h : mapGet m k = some v) : (k, v) ∈ m := by
  induction m with
  | nil => simp [mapGet] at h
  | cons p m ih =>
    rw [mapGet_cons] at h
    by_cases hp : p.1 = k
    · rw [if_pos hp] at h
      obtain ⟨p1, p2⟩ := p
      simp only [Option.some.injEq] at h
      subst hp
      subst h
      exact List.mem_cons_self _ _
    · rw [if_neg hp] at h
      exact List.mem_cons_of_mem _ (ih h)

theorem mem_mapSet (m : List (String × β)) (k : String) (v : β) (p : String × β)
    (h : p ∈ mapSet m k v) : p = (k, v) ∨ p ∈ m := by
  unfold mapSet at h
  by_cases hh : mapHas m k = true
  · rw [if_pos hh] at h
    obtain ⟨q, hq, hfq⟩ := List.mem_map.1 h
    by_cases hqk : q.1 = k
    · rw [if_pos hqk] at hfq
      exact Or.inl hfq.symm
    · rw [if_neg hqk] at hfq
      exact Or.inr (hfq ▸ hq)
  · rw [if_neg hh] at h
    rcases List.mem_append.1 h with h | h
    · exact Or.inr h
    · exact Or.inl (List.mem_singleton.1 h)

theorem mapHas_iff_mem_keys (m : List (String × β)) (k : String) :
    mapHas m k = true ↔ k ∈ mapKeys m := by
  simp only [mapHas, List.any_eq_true, decide_eq_true_eq, mapKeys, List.mem_map]

theorem mapKeys_overwrite (m : List (String × β)) (k : String) (v : β) :
    mapKeys (m.map (fun p => if p.1 = k then (k, v) else p)) = mapKeys m := by
  induction m with
  | nil => rfl
  | cons p m ih =>
    by_cases hp : p.1 = k
    · rw [List.map_cons, if_pos hp]
      simp only [mapKeys, List.map_cons] at ih ⊢
      rw [hp]
      exact congrArg _ ih
    · rw [List.map_cons, if_neg hp]
      simp only [mapKeys, List.map_cons] at ih ⊢
      exact congrArg _ ih

theorem mapKeys_mapSet (m : List (String × β)) (k : String) (v : β) :
    mapKeys (mapSet m k v) = if mapHas m k then mapKeys m else mapKeys m ++ [k] := by
  unfold mapSet
  by_cases hh : mapHas m k = true
  · rw [if_pos hh, if_pos hh, mapKeys_overwrite]
  · rw [if_neg hh, if_neg hh]
    simp [mapKeys]

theorem mem_mapKeys_mapSet (m : List (String × β)) (k : String) (v : β) (q : String) :
    q ∈ mapKeys (mapSet m k v) ↔ q ∈ mapKeys m ∨ q = k := by
  rw [mapKeys_mapSet]
  by_cases hh : mapHas m k = true
  · rw [if_pos hh]
    constructor
    · exact Or.inl
    · rintro (h | rfl)
      · exact h
      · exact (mapHas_iff_mem_keys m q).1 hh
  · rw [if_neg hh]; simp

theorem nodup_mapKeys_mapSet (m : List (String × β)) (k : String) (v : β)
    (h : (mapKeys m).Nodup) : (mapKeys (mapSet m k v)).Nodup := by
  rw [mapKeys_mapSet]
  by_cases hh : mapHas m k = true
  · rwa [if_pos hh]
  · rw [if_neg hh]
    refine List.Nodup.append h (List.nodup_singleton k) ?_
    intro a ha hb
    rcases List.mem_singleton.1 hb with rfl
    exact (by simpa [mapHas_iff_mem_keys] using hh : a ∉ mapKeys m) ha

end MapLemmas

/-! ### Lemmas about the retry loop -/

section RetryLemmas

variable {α : Type}

theorem attemptLoop_ok_first (net : Nat → Except HttpError α) (remaining attempt : Nat)
    (lastError : Option HttpError) (d : α) (hrem : 1 ≤ remaining)
    (hnet : net attempt = .ok d) :
    attemptLoop net remaining attempt lastError = (attempt + 1, .ok d) := by
  obtain ⟨r, rfl⟩ : ∃ r, remaining = r + 1 := ⟨remaining - 1, by omega⟩
  simp [attemptLoop, hnet]

theorem attemptLoop_fatal_first (net : Nat → Except HttpError α) (remaining attempt : Nat)
    (lastError : Option HttpError) (e : HttpError) (hrem : 1 ≤ remaining)
    (hnet : net attempt = .error e) (hfatal : isFatalClientError e = true) :
    attemptLoop net remaining attempt lastError = (attempt + 1, .error (some e)) := by
  obtain ⟨r, rfl⟩ : ∃ r, remaining = r + 1 := ⟨remaining - 1, by omega⟩
  simp [attemptLoop, hnet, hfatal]

theorem attemptLoop_calls_lb (net : Nat → Except HttpError α) (remaining attempt : Nat)
    (lastError : Option HttpError) (hrem : 1 ≤ remaining) :
    attempt + 1 ≤ (attemptLoop net remaining attempt lastError).1 := by
  induction remaining generalizing attempt lastError with
  | zero => omega
  | succ r ih =>
    simp only [attemptLoop]
    cases hnet : net attempt with
    | ok d => simp
    | error e =>
      by_cases hf : isFatalClientError e = true
      · simp [hf]
      · simp only [hf, Bool.false_eq_true, if_false]
        rcases Nat.eq_zero_or_pos r with rfl | hr
        · simp [attemptLoop]
        · have := ih (attempt + 1) (some e) hr
          omega

theorem attemptLoop_allFail (net : Nat → Except HttpError α) (remaining attempt : Nat)
    (lastError : Option HttpError) (hrem : 1 ≤ remaining)
    (hfail : ∀ i, attempt ≤ i → i < attempt + remaining →
      ∃ e, net i = .error e ∧ isFatalClientError e = false) :
    ∃ e, net (attempt + remaining - 1) = .error e ∧
      attemptLoop net remaining attempt lastError = (attempt + remaining, .error (some e)) := by
  induction remaining generalizing attempt lastError with
  | zero => omega
  | succ r ih =>
    obtain ⟨e, hnet, hnf⟩ := hfail attempt (le_refl _) (by omega)
    rcases Nat.eq_zero_or_pos r with rfl | hr
    · exact ⟨e, by simpa using hnet, by simp [attemptLoop, hnet, hnf]⟩
    · obtain ⟨e2, hnet2, hloop⟩ := ih (attempt + 1) (some e) hr
        (fun i h1 h2 => hfail i (by omega) (by omega))
      refine ⟨e2, by convert hnet2 using 2; omega, ?_⟩
      simp only [attemptLoop, hnet, hnf, Bool.false_eq_true, if_false]
      rw [hloop]
      congr 1
      omega

theorem attemptLoop_ok_calls (net : Nat → Except HttpError α) (remaining attempt : Nat)
    (lastError : Option HttpError) (c : Nat) (d : α)
    (h : attemptLoop net remaining attempt lastError = (c, .ok d)) :
    attempt + 1 ≤ c := by
  induction remaining generalizing attempt lastError with
  | zero => simp [attemptLoop] at h
  | succ r ih =>
    simp only [attemptLoop] at h
    cases hnet : net attempt with
    | ok d2 =>
      rw [hnet] at h
      simp only [Prod.mk.injEq] at h
      omega
    | error e =>
      rw [hnet] at h
      by_cases hf : isFatalClientError e = true
      · simp [hf] at h
      · simp only [hf, Bool.false_eq_true, if_false] at h
        have := ih (attempt + 1) (some e) h
        omega

end RetryLemmas

/-! ### Scenario lemmas for `cachedRequest` -/

section CachedRequestLemmas

variable {α : Type}

/-- The invocation does not find a live cache entry: either the refresh is
forced, or the entry under the effective key is absent or already expired. -/
def noLiveCacheEntry (opts : RequestOptions) (cache : CacheMap α) (now : Nat) : Prop :=
  opts.forceRefresh = false →
    ∀ entry, mapGet cache (effectiveCacheKey opts) = some entry → entry.expiry ≤ now

theorem cachedRequest_eq_runNetwork (opts : RequestOptions) (net : Nat → Except HttpError α)
    (now : Nat) (cache : CacheMap α) (hmiss : noLiveCacheEntry opts cache now) :
    cachedRequest opts net now cache = runNetworkOutcome opts net now cache ∨
      cachedRequest opts net now cache =
        runNetworkOutcome opts net now (mapDelete cache (effectiveCacheKey opts)) := by
  unfold cachedRequest
  by_cases hf : opts.forceRefresh = true
  · rw [if_pos hf]; exact Or.inl rfl
  · rw [if_neg hf]
    cases hget : mapGet cache (effectiveCacheKey opts) with
    | none => exact Or.inl rfl
    | some entry =>
      have hexp : entry.expiry ≤ now := hmiss (by simpa using hf) entry hget
      right
      dsimp only
      rw [if_neg (by omega)]

theorem runNetworkOutcome_allFail (opts : RequestOptions) (net : Nat → Except HttpError α)
    (now : Nat) (c : CacheMap α) (hmax : 1 ≤ opts.maxRetries)
    (hfail : ∀ i, i < opts.maxRetries →
      ∃ e, net i = .error e ∧ isFatalClientError e = false) :
    (runNetworkOutcome opts net now c).networkCalls = opts.maxRetries ∧
      (∀ e, net (opts.maxRetries - 1) = .error e →
        (runNetworkOutcome opts net now c).result = .error (some e)) ∧
      (runNetworkOutcome opts net now c).cache = c := by
  obtain ⟨e, hnet, hloop⟩ := attemptLoop_allFail net opts.maxRetries 0 none hmax
    (fun i _ h2 => hfail i (by omega))
  simp only [Nat.zero_add] at hnet hloop
  unfold runNetworkOutcome
  rw [hloop]
  refine ⟨rfl, ?_, rfl⟩
  intro e2 hnet2
  rw [hnet] at hnet2
  cases hnet2
  rfl

theorem runNetworkOutcome_calls_lb (opts : RequestOptions) (net : Nat → Except HttpError α)
    (now : Nat) (c : CacheMap α) (hmax : 1 ≤ opts.maxRetries) :
    1 ≤ (runNetworkOutcome opts net now c).networkCalls := by
  have h := attemptLoop_calls_lb net opts.maxRetries 0 none hmax
  unfold runNetworkOutcome
  rcases hloop : attemptLoop net opts.maxRetries 0 none with ⟨calls, res⟩
  rw [hloop] at h
  cases res <;> simpa using h

end CachedRequestLemmas

/-! ### Claims C2, C3 — retry ceiling and fail-fast -/

/-- **C2**.  With `maxRetries ≥ 1`, no live cache entry, and every network
attempt failing with a retryable error, `cachedRequest` performs exactly
`maxRetries` network attempts, rejects with the last attempt's error, and
stores nothing in the cache (the mapping is unchanged except for the lazy
deletion of an already-expired entry). -/
theorem C2_retry_ceiling {α : Type} (opts : RequestOptions) (net : Nat → Except HttpError α)
    (now : Nat) (cache : CacheMap α)
    (hmax : 1 ≤ opts.maxRetries)
    (hmiss : noLiveCacheEntry opts cache now)
    (hfail : ∀ i, i < opts.maxRetries →
      ∃ e, net i = .error e ∧ isFatalClientError e = false) :
    (cachedRequest opts net now cache).networkCalls = opts.maxRetries ∧
      (∀ e, net (opts.maxRetries - 1) = .error e →
        (cachedRequest opts net now cache).result = .error (some e)) ∧
      ((cachedRequest opts net now cache).cache = cache ∨
        (cachedRequest opts net now cache).cache =
          mapDelete cache (effectiveCacheKey opts)) := by
  rcases cachedRequest_eq_runNetwork opts net now cache hmiss with h | h <;>
    rw [h] <;>
    obtain ⟨h1, h2, h3⟩ := runNetworkOutcome_allFail opts net now _ hmax hfail
  · exact ⟨h1, h2, Or.inl h3⟩
  · exact ⟨h1, h2, Or.inr h3⟩

def err500 : HttpError := { status := some 500, message := "Internal Server Error" }

def err404 : HttpError := { status := some 404, message := "Not Found" }

def err429 : HttpError := { status := some 429, message := "Too Many Requests" }

def wOpts : RequestOptions :=
  { url := "https://api.example.com/data", params := none, cacheKey := some "k" }

def wOpts5 : RequestOptions := { wOpts with maxRetries := 5 }

def net500 : Nat → Except HttpError Nat := fun _ => .error err500

def net404 : Nat → Except HttpError Nat := fun _ => .error err404

def net429 : Nat → Except HttpError Nat := fun _ => .error err429

def netOk : Nat → Except HttpError Nat := fun _ => .ok 7

/-- Witness for C2: an always-500 endpoint with the default `maxRetries = 3`
and an empty cache gives exactly 3 attempts and the 500 as final error. -/
theorem C2_retry_ceiling_witness :
    (cachedRequest wOpts net500 5 []).networkCalls = 3 ∧
      (cachedRequest wOpts net500 5 []).result = .error (some err500) := by
  have h := C2_retry_ceiling wOpts net500 5 [] (by decide)
    (fun _ entry hent => Option.noConfusion hent)
    (fun i _ => ⟨err500, rfl, rfl⟩)
  exact ⟨h.1, h.2.1 err500 rfl⟩

/-- **C3**.  With no live cache entry: a first attempt failing with an HTTP
status in 400–499 other than 429 ends the invocation after exactly one
attempt with that error, whatever `maxRetries ≥ 1` is; while a first attempt
failing with no status (network error/timeout), with 429, or with a 5xx
status is retried (at least a second attempt runs when `maxRetries ≥ 2`). -/
theorem C3_fail_fast {α : Type} (opts : RequestOptions) (net : Nat → Except HttpError α)
    (now : Nat) (cache : CacheMap α)
    (hmiss : noLiveCacheEntry opts cache now) :
    (∀ e s, net 0 = .error e → e.status = some s → 400 ≤ s → s < 500 → s ≠ 429 →
      1 ≤ opts.maxRetries →
      (cachedRequest opts net now cache).networkCalls = 1 ∧
        (cachedRequest opts net now cache).result = .error (some e)) ∧
    (∀ e, net 0 = .error e →
      (e.status = none ∨ e.status = some 429 ∨ (∃ s, e.status = some s ∧ 500 ≤ s)) →
      2 ≤ opts.maxRetries →
      2 ≤ (cachedRequest opts net now cache).networkCalls) := by
  constructor
  · intro e s hnet hs h400 h500 h429 hmax
    have hfatal : isFatalClientError e = true := by
      simp [isFatalClientError, hs, h400, h500, h429]
    have hloop := attemptLoop_fatal_first net opts.maxRetries 0 none e hmax hnet hfatal
    rcases cachedRequest_eq_runNetwork opts net now cache hmiss with h | h <;>
      rw [h] <;> unfold runNetworkOutcome <;> rw [hloop] <;> exact ⟨rfl, rfl⟩
  · intro e hnet hstat hmax
    have hnf : isFatalClientError e = false := by
      rcases hstat with h | h | ⟨s, hs, h5⟩
      · simp [isFatalClientError, h]
      · simp [isFatalClientError, h]
      · simp [isFatalClientError, hs]
        omega
    have hcalls : 2 ≤ (attemptLoop net opts.maxRetries 0 none).1 := by
      obtain ⟨r, hr⟩ : ∃ r, opts.maxRetries = r + 1 := ⟨opts.maxRetries - 1, by omega⟩
      rw [hr]
      simp only [attemptLoop, hnet, hnf, Bool.false_eq_true, if_false]
      have h2 := attemptLoop_calls_lb net r (0 + 1) (some e) (by omega)
      omega
    rcases cachedRequest_eq_runNetwork opts net now cache hmiss with h | h <;>
      rw [h] <;> unfold runNetworkOutcome <;>
      rcases hloop : attemptLoop net opts.maxRetries 0 none with ⟨calls, res⟩ <;>
      rw [hloop] at hcalls <;> cases res <;> simpa using hcalls

/-- Witness for C3: a single 404 with `maxRetries = 5` stops after 1 attempt;
a 429 with `maxRetries = 3` runs at least 2 attempts. -/
theorem C3_fail_fast_witness :
    ((cachedRequest wOpts5 net404 5 []).networkCalls = 1 ∧
      (cachedRequest wOpts5 net404 5 []).result = .error (some err404)) ∧
      2 ≤ (cachedRequest wOpts net429 5 []).networkCalls := by
  refine ⟨(C3_fail_fast wOpts5 net404 5 []
      (fun _ entry hent => Option.noConfusion hent)).1 err404 404 rfl rfl
      (by decide) (by decide) (by decide) (by decide), ?_⟩
  exact (C3_fail_fast wOpts net429 5 []
      (fun _ entry hent => Option.noConfusion hent)).2 err429 rfl
      (Or.inr (Or.inl rfl)) (by decide)

/-! ### Claims C5, C6, C10 — cache behaviour and fingerprint -/

/-- **C5**.  (1) With `forceRefresh = false` and a live entry under the
effective key, `cachedRequest` returns that entry's payload with no network
call and an unchanged cache.  (2) Hence a cold fetch that succeeds on its
first attempt makes exactly one network call, and a second invocation with
the same options within the TTL window returns the stored payload with zero
further network calls.  (3) An invocation that finds the entry expired
(no live entry any more) performs a fresh network call. -/
theorem C5_cache_ttl {α : Type} (opts : RequestOptions) (net net2 : Nat → Except HttpError α)
    (t1 t2 : Nat) (cache : CacheMap α) :
    (∀ entry, opts.forceRefresh = false →
      mapGet cache (effectiveCacheKey opts) = some entry → t1 < entry.expiry →
      cachedRequest opts net t1 cache =
        { result := .ok entry.data, cache := cache, networkCalls := 0 }) ∧
    (opts.forceRefresh = false → mapGet cache (effectiveCacheKey opts) = none →
      1 ≤ opts.maxRetries → ∀ d, net 0 = .ok d → t2 < t1 + opts.cacheTTL →
      (cachedRequest opts net t1 cache).networkCalls = 1 ∧
        (cachedRequest opts net2 t2 (cachedRequest opts net t1 cache).cache).result = .ok d ∧
        (cachedRequest opts net2 t2 (cachedRequest opts net t1 cache).cache).networkCalls = 0) ∧
    (∀ entry, opts.forceRefresh = false →
      mapGet cache (effectiveCacheKey opts) = some entry → entry.expiry ≤ t2 →
      1 ≤ opts.maxRetries → 1 ≤ (cachedRequest opts net2 t2 cache).networkCalls) := by
  refine ⟨?_, ?_, ?_⟩
  · intro entry hf hget hlive
    unfold cachedRequest
    rw [if_neg (by simp [hf]), hget]
    dsimp only
    rw [if_pos hlive]
  · intro hf hget hmax d hnet hwin
    have hfirst : cachedRequest opts net t1 cache =
        { result := .ok d
          cache := mapSet cache (effectiveCacheKey opts)
            { data := d, expiry := t1 + opts.cacheTTL, timestamp := t1 }
          networkCalls := 1 } := by
      unfold cachedRequest
      rw [if_neg (by simp [hf]), hget]
      unfold runNetworkOutcome
      rw [attemptLoop_ok_first net opts.maxRetries 0 none d hmax hnet]
    refine ⟨by rw [hfirst], ?_, ?_⟩ <;>
      rw [hfirst] <;>
      unfold cachedRequest <;>
      rw [if_neg (by simp [hf]), mapGet_mapSet_self] <;>
      dsimp only <;>
      rw [if_pos hwin]
  · intro entry hf hget hexp hmax
    unfold cachedRequest
    rw [if_neg (by simp [hf]), hget]
    dsimp only
    rw [if_neg (by omega)]
    exact runNetworkOutcome_calls_lb opts net2 t2 _ hmax

def wCache : CacheMap Nat := [("k", { data := 41, expiry := 10, timestamp := 0 })]

/-- Witness for C5: a live entry (expiry 10, now 5) is returned with zero
network calls; a cold fetch at `t1 = 0` followed by a refetch at
`t2 = 1000`, inside the 15-minute TTL, makes one network call then zero; at
`t2 = 20` the entry from `wCache` is expired and a network call runs. -/
theorem C5_cache_ttl_witness :
    (cachedRequest wOpts netOk 5 wCache =
      { result := .ok 41, cache := wCache, networkCalls := 0 }) ∧
      ((cachedRequest wOpts netOk 0 []).networkCalls = 1 ∧
        (cachedRequest wOpts net500 1000 (cachedRequest wOpts netOk 0 []).cache).result =
          .ok 7 ∧
        (cachedRequest wOpts net500 1000 (cachedRequest wOpts netOk 0 []).cache).networkCalls =
          0) ∧
      1 ≤ (cachedRequest wOpts net500 20 wCache).networkCalls := by
  refine ⟨?_, ?_, ?_⟩
  · exact (C5_cache_ttl wOpts netOk netOk 5 0 wCache).1
      { data := 41, expiry := 10, timestamp := 0 } rfl rfl (by decide)
  · exact (C5_cache_ttl wOpts netOk net500 0 1000 []).2.1 rfl rfl (by decide) 7 rfl (by decide)
  · exact (C5_cache_ttl wOpts netOk net500 0 20 wCache).2.2
      { data := 41, expiry := 10, timestamp := 0 } rfl rfl (by decide) (by decide)

/-- **C6**.  Frame property of one `cachedRequest` invocation: keys other
than the effective key are never touched; a cache-hit short-circuit (a
returned payload with zero network calls) leaves the cache exactly as it
was; a success obtained from the network writes the fresh entry under the
effective key; and a rejected invocation leaves the mapping unchanged except
for the lazy deletion of an entry that was already expired. -/
theorem C6_cache_write_frame {α : Type} (opts : RequestOptions)
    (net : Nat → Except HttpError α) (now : Nat) (cache : CacheMap α) :
    (∀ k, k ≠ effectiveCacheKey opts →
      mapGet (cachedRequest opts net now cache).cache k = mapGet cache k) ∧
    (∀ d, (cachedRequest opts net now cache).result = .ok d →
      (cachedRequest opts net now cache).networkCalls = 0 →
      (cachedRequest opts net now cache).cache = cache) ∧
    (∀ d, (cachedRequest opts net now cache).result = .ok d →
      1 ≤ (cachedRequest opts net now cache).networkCalls →
      mapGet (cachedRequest opts net now cache).cache (effectiveCacheKey opts) =
        some { data := d, expiry := now + opts.cacheTTL, timestamp := now }) ∧
    (∀ e, (cachedRequest opts net now cache).result = .error e →
      ((cachedRequest opts net now cache).cache = cache ∨
        ((cachedRequest opts net now cache).cache =
            mapDelete cache (effectiveCacheKey opts) ∧
          ∃ entry, mapGet cache (effectiveCacheKey opts) = some entry ∧
            entry.expiry ≤ now))) := by
  have main : ∀ c1 : CacheMap α,
      (∀ k, k ≠ effectiveCacheKey opts → mapGet c1 k = mapGet cache k) →
      (∀ d, (runNetworkOutcome opts net now c1).result = .ok d →
          (runNetworkOutcome opts net now c1).networkCalls = 0 →
          (runNetworkOutcome opts net now c1).cache = cache) ∧
        (∀ k, k ≠ effectiveCacheKey opts →
          mapGet (runNetworkOutcome opts net now c1).cache k = mapGet cache k) ∧
        (∀ d, (runNetworkOutcome opts net now c1).result = .ok d →
          mapGet (runNetworkOutcome opts net now c1).cache (effectiveCacheKey opts) =
            some { data := d, expiry := now + opts.cacheTTL, timestamp := now }) ∧
        (∀ e, (runNetworkOutcome opts net now c1).result = .error e →
          (runNetworkOutcome opts net now c1).cache = c1) := by
    intro c1 hframe
    unfold runNetworkOutcome
    rcases hloop : attemptLoop net opts.maxRetries 0 none with ⟨calls, res⟩
    cases res with
    | ok d =>
      refine ⟨?_, ?_, ?_, ?_⟩
      · intro d2 _ hcalls
        dsimp only at hcalls
        have := attemptLoop_ok_calls net opts.maxRetries 0 none calls d hloop
        omega
      · intro k hk
        dsimp only
        rw [mapGet_mapSet_ne _ _ _ _ hk, hframe k hk]
      · intro d2 hd2
        dsimp only at hd2 ⊢
        cases hd2
        rw [mapGet_mapSet_self]
      · intro e he
        dsimp only at he
        exact Except.noConfusion he
    | error e =>
      refine ⟨?_, ?_, ?_, ?_⟩
      · intro d hd
        dsimp only at hd
        exact Except.noConfusion hd
      · intro k hk
        dsimp only
        exact hframe k hk
      · intro d hd
        dsimp only at hd
        exact Except.noConfusion hd
      · intro e2 _
        rfl
  unfold cachedRequest
  by_cases hf : opts.forceRefresh = true
  · rw [if_pos hf]
    obtain ⟨hb, ha, hc, hd⟩ := main cache (fun _ _ => rfl)
    exact ⟨ha, hb, fun d h1 _ => hc d h1, fun e he => Or.inl (hd e he)⟩
  · rw [if_neg hf]
    cases hget : mapGet cache (effectiveCacheKey opts) with
    | none =>
      obtain ⟨hb, ha, hc, hd⟩ := main cache (fun _ _ => rfl)
      exact ⟨ha, hb, fun d h1 _ => hc d h1, fun e he => Or.inl (hd e he)⟩
    | some entry =>
      dsimp only
      by_cases hlive : now < entry.expiry
      · rw [if_pos hlive]
        refine ⟨fun _ _ => rfl, fun _ _ _ => rfl, fun d _ h => ?_, fun e he => ?_⟩
        · dsimp only at h
          omega
        · exact Except.noConfusion he
      · rw [if_neg hlive]
        obtain ⟨hb, ha, hc, hd⟩ := main (mapDelete cache (effectiveCacheKey opts))
          (fun k hk => mapGet_mapDelete_ne cache (effectiveCacheKey opts) k hk)
        refine ⟨ha, hb, fun d h1 _ => hc d h1, fun e he => Or.inr ?_⟩
        exact ⟨hd e he, entry, rfl, by omega⟩

/-- Witness for C6: a cache hit leaves the cache untouched, and a network
success writes exactly the fresh entry. -/
theorem C6_cache_write_frame_witness :
    (cachedRequest wOpts netOk 5 wCache).cache = wCache ∧
      mapGet (cachedRequest wOpts netOk 5 []).cache "other" = mapGet ([] : CacheMap Nat) "other" ∧
      mapGet (cachedRequest wOpts netOk 5 []).cache (effectiveCacheKey wOpts) =
        some { data := 7, expiry := 5 + wOpts.cacheTTL, timestamp := 5 } := by
  refine ⟨(C6_cache_write_frame wOpts netOk 5 wCache).2.1 41 rfl rfl, ?_, ?_⟩
  · exact (C6_cache_write_frame wOpts netOk 5 []).1 "other" (by decide)
  · exact (C6_cache_write_frame wOpts netOk 5 []).2.2.1 7 rfl (by decide)

/-- **C10**.  When `cacheKey` is omitted the fingerprint is
`url + ':' + JSON.stringify(params || \x7b\x7d)`; in particular any two such
invocations with the same `url` and `params` address the same cache key. -/
theorem C10_default_fingerprint (opts opts2 : RequestOptions) :
    (opts.cacheKey = none →
      effectiveCacheKey opts = opts.url ++ ":" ++ jsonStringifyParams (opts.params.getD [])) ∧
    (opts.cacheKey = none → opts2.cacheKey = none → opts.url = opts2.url →
      opts.params = opts2.params → effectiveCacheKey opts = effectiveCacheKey opts2) := by
  constructor
  · intro h
    simp [effectiveCacheKey, h]
  · intro h h2 hu hp
    simp [effectiveCacheKey, h, h2, hu, hp]

def wOptsNoKey : RequestOptions :=
  { url := "https://api.example.com/data", params := some [("a", "b")], cacheKey := none }

/-- Witness for C10 at a concrete options object. -/
theorem C10_default_fingerprint_witness :
    effectiveCacheKey wOptsNoKey =
      wOptsNoKey.url ++ ":" ++ jsonStringifyParams (wOptsNoKey.params.getD []) ∧
      effectiveCacheKey wOptsNoKey = effectiveCacheKey wOptsNoKey := by
  exact ⟨(C10_default_fingerprint wOptsNoKey wOptsNoKey).1 rfl,
    (C10_default_fingerprint wOptsNoKey wOptsNoKey).2 rfl rfl rfl rfl⟩

/-! ### Claim C7 — merge overlap -/

def c7GoogleRow : PlatformRow :=
  { Date := "2025-01-01", Clicks := "10", Impressions := "100",
    Avg_CPC := "$0.10", Cost := "$1.00" }

def c7FacebookRow : PlatformRow :=
  { Date := "2025-01-01", Clicks := "5", Impressions := "200",
    Avg_CPC := "$0.20", Cost := "$1.00" }

/-- **C7**.  Series A with 10 clicks on 2025-01-01 merged with series B with
5 clicks on the same date: the two platforms' clicks are summed into
`Total_Clicks = 15` (and the merged output holds the one shared date). -/
theorem C7_merge_overlap :
    (mergeAndFormatData [c7GoogleRow] [c7FacebookRow]).totals.Google_Clicks = 10 ∧
      (mergeAndFormatData [c7GoogleRow] [c7FacebookRow]).totals.Facebook_Clicks = 5 ∧
      (mergeAndFormatData [c7GoogleRow] [c7FacebookRow]).totals.Total_Clicks = 15 ∧
      (mergeAndFormatData [c7GoogleRow] [c7FacebookRow]).dailyData.length = 1 := by
  decide

/-! ### Claim C1 — zero totals give NaN rates, not zero-valued rates -/

/-- **C1 counterexample**.  On empty inputs all totals are 0, and
`calculateMetrics` divides them anyway: each CTR is the string `"NaN%"` and
the overall average CPC is `"$NaN"` — not the zero-valued rates the claim
asserts. -/
theorem C1_counterexample :
    (mergeAndFormatData [] []).totals.Total_Impressions = 0 ∧
      (mergeAndFormatData [] []).metrics.Google_CTR = "NaN%" ∧
      (mergeAndFormatData [] []).metrics.Facebook_CTR = "NaN%" ∧
      (mergeAndFormatData [] []).metrics.Overall_CTR = "NaN%" ∧
      (mergeAndFormatData [] []).metrics.Overall_CTR ≠ "0.00%" ∧
      (mergeAndFormatData [] []).metrics.Overall_Avg_CPC = "$NaN" := by
  refine ⟨by decide, by decide, by decide, by decide, by decide, ?_⟩
  norm_num [mergeAndFormatData, calculateTotals, calculateMetrics, totalsStep, jsDiv,
    jsToFixed2, buildDataByDate, mapValues, List.insertionSort]
  rfl

/-- **C1 amended**.  `calculateMetrics` has no zero-guard: whenever a
denominator total is 0 together with its numerator total, the corresponding
rate in the metrics object of `mergeAndFormatData` is the JavaScript `0/0`
result — the string `"NaN%"` (CTR) or `"$NaN"` (average CPC) — never the
zero-valued `"0.00%"` / `"$0.00"` the spec promises. -/
theorem C1_amended (g f : List PlatformRow) :
    ((mergeAndFormatData g f).totals.Google_Impressions = 0 →
      (mergeAndFormatData g f).totals.Google_Clicks = 0 →
      (mergeAndFormatData g f).metrics.Google_CTR = "NaN%") ∧
    ((mergeAndFormatData g f).totals.Facebook_Impressions = 0 →
      (mergeAndFormatData g f).totals.Facebook_Clicks = 0 →
      (mergeAndFormatData g f).metrics.Facebook_CTR = "NaN%") ∧
    ((mergeAndFormatData g f).totals.Total_Impressions = 0 →
      (mergeAndFormatData g f).totals.Total_Clicks = 0 →
      (mergeAndFormatData g f).metrics.Overall_CTR = "NaN%") ∧
    ((mergeAndFormatData g f).totals.Google_Clicks = 0 →
      (mergeAndFormatData g f).totals.Google_Cost = 0 →
      (mergeAndFormatData g f).metrics.Google_Avg_CPC = "$NaN") ∧
    ((mergeAndFormatData g f).totals.Facebook_Clicks = 0 →
      (mergeAndFormatData g f).totals.Facebook_Cost = 0 →
      (mergeAndFormatData g f).metrics.Facebook_Avg_CPC = "$NaN") ∧
    ((mergeAndFormatData g f).totals.Total_Clicks = 0 →
      (mergeAndFormatData g f).totals.Total_Cost = 0 →
      (mergeAndFormatData g f).metrics.Overall_Avg_CPC = "$NaN") := by
  have hm : (mergeAndFormatData g f).metrics =
      calculateMetrics (mergeAndFormatData g f).totals := rfl
  rw [hm]
  refine ⟨?_, ?_, ?_, ?_, ?_, ?_⟩ <;> intro h1 h2 <;>
    simp [calculateMetrics, h1, h2, jsDiv, jsMulPos, jsToFixed2]

/-- Witness for the amended C1 at the empty inputs. -/
theorem C1_amended_witness :
    ((mergeAndFormatData [] []).totals.Google_Impressions = 0 ∧
      (mergeAndFormatData [] []).totals.Google_Clicks = 0) ∧
      (mergeAndFormatData [] []).metrics.Google_CTR = "NaN%" :=
  ⟨⟨by decide, by decide⟩, (C1_amended [] []).1 (by decide) (by decide)⟩

/-! ### Claim C8 — numeric parsing in `calculateTotals` -/

def c8BigRow : MergedRow :=
  { Date := "2025-01-01", Google_Clicks := "1", Google_Impressions := "1,234,567",
    Google_CPC := "$0.10", Google_Cost := "$1.00", Facebook_Clicks := "0",
    Facebook_Impressions := "0", Facebook_CPC := "$0.00", Facebook_Cost := "$0.00" }

/-- **C8 counterexample**.  `replace(',', '')` removes only the first comma,
so the impressions string `"1,234,567"` becomes `"1234,567"` and `parseInt`
stops at the remaining comma: the row contributes 1234, not 1234567 — the
claim's "strips thousands-separators" fails for values with more than one
separator. -/
theorem C8_counterexample :
    (calculateTotals [c8BigRow]).Google_Impressions = 1234 ∧
      (calculateTotals [c8BigRow]).Google_Impressions ≠ 1234567 := by
  decide

/-- **C8 amended**.  The totals computation strips the currency symbol and
the *first* thousands-separator before parsing: a row whose cost string is
`"$12.55"` contributes exactly 12.55 and one whose impressions string is
`"3,158"` contributes exactly 3158, and a string that still fails to parse
contributes zero rather than raising; but only the first comma is removed,
so multi-separator values are truncated at the second comma. -/
theorem C8_amended (data : List MergedRow) (r : MergedRow) :
    (r.Google_Cost = "$12.55" →
      (calculateTotals (data ++ [r])).Google_Cost =
        (calculateTotals data).Google_Cost + 1255 / 100) ∧
    (r.Google_Impressions = "3,158" →
      (calculateTotals (data ++ [r])).Google_Impressions =
        (calculateTotals data).Google_Impressions + 3158) ∧
    (parseIntJs (jsReplaceOnce r.Google_Impressions ',') = none →
      (calculateTotals (data ++ [r])).Google_Impressions =
        (calculateTotals data).Google_Impressions) ∧
    (parseFloatJs (jsReplaceOnce r.Google_Cost '$') = none →
      (calculateTotals (data ++ [r])).Google_Cost =
        (calculateTotals data).Google_Cost) := by
  have hacc : ∀ l : List MergedRow, calculateTotals l =
      { List.foldl totalsStep
          { Google_Clicks := 0, Google_Impressions := 0, Google_Cost := 0,
            Facebook_Clicks := 0, Facebook_Impressions := 0, Facebook_Cost := 0 } l with
        Total_Clicks := (List.foldl totalsStep
          { Google_Clicks := 0, Google_Impressions := 0, Google_Cost := 0,
            Facebook_Clicks := 0, Facebook_Impressions := 0, Facebook_Cost := 0 } l).Google_Clicks +
          (List.foldl totalsStep
          { Google_Clicks := 0, Google_Impressions := 0, Google_Cost := 0,
            Facebook_Clicks := 0, Facebook_Impressions := 0, Facebook_Cost := 0 } l).Facebook_Clicks
        Total_Impressions := (List.foldl totalsStep
          { Google_Clicks := 0, Google_Impressions := 0, Google_Cost := 0,
            Facebook_Clicks := 0, Facebook_Impressions := 0, Facebook_Cost := 0 } l).Google_Impressions +
          (List.foldl totalsStep
          { Google_Clicks := 0, Google_Impressions := 0, Google_Cost := 0,
            Facebook_Clicks := 0, Facebook_Impressions := 0, Facebook_Cost := 0 } l).Facebook_Impressions
        Total_Cost := (List.foldl totalsStep
          { Google_Clicks := 0, Google_Impressions := 0, Google_Cost := 0,
            Facebook_Clicks := 0, Facebook_Impressions := 0, Facebook_Cost := 0 } l).Google_Cost +
          (List.foldl totalsStep
          { Google_Clicks := 0, Google_Impressions := 0, Google_Cost := 0,
            Facebook_Clicks := 0, Facebook_Impressions := 0, Facebook_Cost := 0 } l).Facebook_Cost } :=
    fun l => rfl
  refine ⟨?_, ?_, ?_, ?_⟩
  · intro h
    rw [hacc, hacc]
    simp only [List.foldl_append, List.foldl_cons, List.foldl_nil]
    show (List.foldl totalsStep _ data).Google_Cost +
        ratOr0 (parseFloatJs (jsReplaceOnce r.Google_Cost '$')) = _
    rw [h]
    have hp : parseFloatJs (jsReplaceOnce "$12.55" '$') =
        some (1 * ((12 : ℚ) + 55 / 10 ^ 2)) := rfl
    rw [hp]
    show _ + (1 * ((12 : ℚ) + 55 / 10 ^ 2)) = _ + 1255 / 100
    norm_num
  · intro h
    rw [hacc, hacc]
    simp only [List.foldl_append, List.foldl_cons, List.foldl_nil]
    show (List.foldl totalsStep _ data).Google_Impressions +
        intOr0 (parseIntJs (jsReplaceOnce r.Google_Impressions ',')) = _
    rw [h]
    norm_num [show parseIntJs (jsReplaceOnce "3,158" ',') = some 3158 from by decide, intOr0]
  · intro h
    rw [hacc, hacc]
    simp only [List.foldl_append, List.foldl_cons, List.foldl_nil]
    show (List.foldl totalsStep _ data).Google_Impressions +
        intOr0 (parseIntJs (jsReplaceOnce r.Google_Impressions ',')) = _
    rw [h]
    simp [intOr0]
  · intro h
    rw [hacc, hacc]
    simp only [List.foldl_append, List.foldl_cons, List.foldl_nil]
    show (List.foldl totalsStep _ data).Google_Cost +
        ratOr0 (parseFloatJs (jsReplaceOnce r.Google_Cost '$')) = _
    rw [h]
    simp [ratOr0]

def c8ExRow : MergedRow :=
  { Date := "2025-01-01", Google_Clicks := "1", Google_Impressions := "3,158",
    Google_CPC := "$0.10", Google_Cost := "$12.55", Facebook_Clicks := "0",
    Facebook_Impressions := "0", Facebook_CPC := "$0.00", Facebook_Cost := "$0.00" }

def c8BadRow : MergedRow :=
  { Date := "2025-01-01", Google_Clicks := "1", Google_Impressions := "abc",
    Google_CPC := "$0.10", Google_Cost := "xyz", Facebook_Clicks := "0",
    Facebook_Impressions := "0", Facebook_CPC := "$0.00", Facebook_Cost := "$0.00" }

/-- Witness for the amended C8 at concrete rows. -/
theorem C8_amended_witness :
    (c8ExRow.Google_Cost = "$12.55" ∧ c8ExRow.Google_Impressions = "3,158" ∧
      parseIntJs (jsReplaceOnce c8BadRow.Google_Impressions ',') = none) ∧
      (calculateTotals ([] ++ [c8ExRow])).Google_Cost =
        (calculateTotals []).Google_Cost + 1255 / 100 ∧
      (calculateTotals ([] ++ [c8ExRow])).Google_Impressions =
        (calculateTotals []).Google_Impressions + 3158 ∧
      (calculateTotals ([] ++ [c8BadRow])).Google_Impressions =
        (calculateTotals []).Google_Impressions :=
  ⟨⟨rfl, rfl, by decide⟩, (C8_amended [] c8ExRow).1 rfl,
    (C8_amended [] c8ExRow).2.1 rfl, (C8_amended [] c8BadRow).2.2.1 (by decide)⟩

/-! ### Claim C9 — malformed dates in the Normalizer -/

def c9BadGoogleRow : GoogleRawRow :=
  { date := some "not-a-date", clicks := some 3, impressions := some 40,
    average_cpc := some 500000, cost_micros := some 1500000 }

def c9BadFacebookRow : FacebookRawRow :=
  { date_start := none, date_stop := none, campaign_name := none,
    clicks := some "3", impressions := some "40", cpc := some "0.5", spend := some "1.5" }

def c9NoCpcRow : FacebookRawRow :=
  { date_start := some "2025-01-06", date_stop := some "2025-01-06",
    campaign_name := none, clicks := some "3", impressions := some "40",
    cpc := none, spend := none }

/-- **C9 counterexample**.  A Google row with the unparseable date
`"not-a-date"` and a Facebook row with a missing `date_start` do not raise:
both formatting passes succeed and silently emit the garbage date string
`"Invalid Date"` for the row — contradicting the claim that a
missing/unparseable date is a hard error. -/
theorem C9_counterexample :
    (formatGoogleRows [c9BadGoogleRow]).isOk = true ∧
      (formatGoogleRows [c9BadGoogleRow]).toOption.map
        (List.map (fun r => r.Date)) = some ["Invalid Date"] ∧
      (formatFacebookRows [c9BadFacebookRow]).isOk = true ∧
      (formatFacebookRows [c9BadFacebookRow]).toOption.map
        (List.map (fun r => r.Date)) = some ["Invalid Date"] := by
  decide

theorem qToFixed2_zero : qToFixed2 0 = "0.00" := by
  unfold qToFixed2
  have h1 : |(0 : ℚ)| * 100 + 1 / 2 = 1 / 2 := by norm_num
  rw [h1]
  have h2 : Int.floor ((1 : ℚ) / 2) = 0 := by
    rw [Int.floor_eq_iff] <;> norm_num
  rw [h2]
  rfl

/-- **C9 amended**.  A raw upstream row whose date field is missing or
unparseable is *not* an error: the Normalizer keeps the row and silently
gives it the literal date string `"Invalid Date"` (the formatting of a
JavaScript Invalid Date); missing numeric `cpc`/`spend` fields are tolerated
as zero (`"$0.00"`), while a garbled numeric field comes out as `NaN`, not
zero. -/
theorem C9_amended (grow : GoogleRawRow) (frow : FacebookRawRow) :
    (jsNewDate grow.date = none → grow.impressions.isSome = true →
      grow.clicks.isSome = true →
      ∃ r, formatGoogleRow grow = .ok r ∧ r.Date = "Invalid Date") ∧
    (jsNewDate frow.date_start = none → frow.clicks.isSome = true →
      ∃ r, formatFacebookRow frow = .ok r ∧ r.Date = "Invalid Date") ∧
    (frow.clicks.isSome = true → frow.cpc = none → frow.spend = none →
      ∃ r, formatFacebookRow frow = .ok r ∧ r.Avg_CPC = "$0.00" ∧ r.Cost = "$0.00") := by
  obtain ⟨gd, gc, gi, ga, gm⟩ := grow
  obtain ⟨fd, fds, fcn, fc, fi, fcpc, fsp⟩ := frow
  refine ⟨?_, ?_, ?_⟩
  · intro hdate himp hclk
    obtain ⟨i, rfl⟩ := Option.isSome_iff_exists.mp himp
    obtain ⟨c, rfl⟩ := Option.isSome_iff_exists.mp hclk
    refine ⟨_, rfl, ?_⟩
    show toLocaleDateStringUS (jsNewDate gd) = "Invalid Date"
    rw [hdate]
    rfl
  · intro hdate hclk
    obtain ⟨c, rfl⟩ := Option.isSome_iff_exists.mp hclk
    refine ⟨_, rfl, ?_⟩
    show toLocaleDateStringUS (jsNewDate fd) = "Invalid Date"
    rw [hdate]
    rfl
  · intro hclk hcpc hsp
    obtain ⟨c, rfl⟩ := Option.isSome_iff_exists.mp hclk
    cases hcpc
    cases hsp
    refine ⟨_, rfl, ?_, ?_⟩
    · show "$" ++ optToFixed2 (parseFloatOrZero none) = "$0.00"
      show "$" ++ jsToFixed2 (JNum.num 0) = "$0.00"
      show "$" ++ qToFixed2 0 = "$0.00"
      rw [qToFixed2_zero]
      rfl
    · show "$" ++ optToFixed2 (parseFloatOrZero none) = "$0.00"
      show "$" ++ qToFixed2 0 = "$0.00"
      rw [qToFixed2_zero]
      rfl

/-- Witness for the amended C9 at concrete rows. -/
theorem C9_amended_witness :
    (jsNewDate c9BadGoogleRow.date = none ∧ jsNewDate c9BadFacebookRow.date_start = none ∧
      c9NoCpcRow.cpc = none ∧ c9NoCpcRow.spend = none) ∧
      (∃ r, formatGoogleRow c9BadGoogleRow = .ok r ∧ r.Date = "Invalid Date") ∧
      (∃ r, formatFacebookRow c9BadFacebookRow = .ok r ∧ r.Date = "Invalid Date") ∧
      (∃ r, formatFacebookRow c9NoCpcRow = .ok r ∧ r.Avg_CPC = "$0.00" ∧ r.Cost = "$0.00") :=
  ⟨⟨by decide, by decide, by decide, by decide⟩,
    (C9_amended c9BadGoogleRow c9BadFacebookRow).1 (by decide) (by decide) (by decide),
    (C9_amended c9BadGoogleRow c9BadFacebookRow).2.1 (by decide) (by decide),
    (C9_amended c9BadGoogleRow c9NoCpcRow).2.2 (by decide) (by decide) (by decide)⟩

/-! ### Claim C4 — merge completeness -/

section MergeLemmas

/-- Fold invariant preservation. -/
theorem foldl_preserves {σ β : Type} (step : σ → β → σ) (P : σ → Prop) :
    ∀ (l : List β) (init : σ), P init →
      (∀ s b, b ∈ l → P s → P (step s b)) → P (l.foldl step init)
  | [], init, hinit, _ => hinit
  | b :: l, init, hinit, hstep =>
    foldl_preserves step P l (step init b)
      (hstep init b (List.mem_cons_self b l) hinit)
      (fun s b2 hb2 => hstep s b2 (List.mem_cons_of_mem b hb2))

theorem keys_googleFold (g : List PlatformRow) (m : List (String × MergedRow)) (k : String) :
    k ∈ mapKeys (g.foldl googleStep m) ↔ k ∈ mapKeys m ∨ ∃ r ∈ g, r.Date = k := by
  induction g generalizing m with
  | nil => simp
  | cons r g ih =>
    rw [List.foldl_cons, ih]
    rw [show googleStep m r = mapSet m r.Date (googleEntry r) from rfl]
    rw [mem_mapKeys_mapSet]
    constructor
    · rintro ((h | rfl) | ⟨r2, hr2, rfl⟩)
      · exact Or.inl h
      · exact Or.inr ⟨r, List.mem_cons_self r g, rfl⟩
      · exact Or.inr ⟨r2, List.mem_cons_of_mem r hr2, rfl⟩
    · rintro (h | ⟨r2, hr2, rfl⟩)
      · exact Or.inl (Or.inl h)
      · rcases List.mem_cons.1 hr2 with rfl | hr2
        · exact Or.inl (Or.inr rfl)
        · exact Or.inr ⟨r2, hr2, rfl⟩

theorem keys_facebookStep (m : List (String × MergedRow)) (row : PlatformRow) (k : String) :
    k ∈ mapKeys (facebookStep m row) ↔ k ∈ mapKeys m ∨ k = row.Date := by
  unfold facebookStep
  cases mapGet m row.Date <;> exact mem_mapKeys_mapSet _ _ _ _

theorem keys_facebookFold (f : List PlatformRow) (m : List (String × MergedRow)) (k : String) :
    k ∈ mapKeys (f.foldl facebookStep m) ↔ k ∈ mapKeys m ∨ ∃ r ∈ f, r.Date = k := by
  induction f generalizing m with
  | nil => simp
  | cons r f ih =>
    rw [List.foldl_cons, ih, keys_facebookStep]
    constructor
    · rintro ((h | rfl) | ⟨r2, hr2, rfl⟩)
      · exact Or.inl h
      · exact Or.inr ⟨r, List.mem_cons_self r f, rfl⟩
      · exact Or.inr ⟨r2, List.mem_cons_of_mem r hr2, rfl⟩
    · rintro (h | ⟨r2, hr2, rfl⟩)
      · exact Or.inl (Or.inl h)
      · rcases List.mem_cons.1 hr2 with rfl | hr2
        · exact Or.inl (Or.inr rfl)
        · exact Or.inr ⟨r2, hr2, rfl⟩

/-- The Facebook-side fields that the Google pass zero-fills. -/
def fbZero (v : MergedRow) : Prop :=
  v.Facebook_Clicks = "0" ∧ v.Facebook_Impressions = "0" ∧
    v.Facebook_CPC = "$0.00" ∧ v.Facebook_Cost = "$0.00"

/-- The Google-side fields that the Facebook pass zero-fills. -/
def gZero (v : MergedRow) : Prop :=
  v.Google_Clicks = "0" ∧ v.Google_Impressions = "0" ∧
    v.Google_CPC = "$0.00" ∧ v.Google_Cost = "$0.00"

/-- Invariant of the finished `dataByDate` map. -/
def mergeInv (g f : List PlatformRow) (m : List (String × MergedRow)) : Prop :=
  (∀ p ∈ m, p.2.Date = p.1) ∧
    (∀ p ∈ m, fbZero p.2 ∨ ∃ r ∈ f, r.Date = p.1) ∧
    (∀ p ∈ m, gZero p.2 ∨ ∃ r ∈ g, r.Date = p.1)

theorem mergeInv_googleFold (g f : List PlatformRow) :
    mergeInv g f (g.foldl googleStep []) := by
  refine foldl_preserves googleStep (mergeInv g f) g [] ⟨?_, ?_, ?_⟩ ?_
  · intro p hp; exact absurd hp (List.not_mem_nil p)
  · intro p hp; exact absurd hp (List.not_mem_nil p)
  · intro p hp; exact absurd hp (List.not_mem_nil p)
  · rintro m row hrow ⟨h1, h2, h3⟩
    refine ⟨?_, ?_, ?_⟩
    · intro p hp
      rcases mem_mapSet m row.Date (googleEntry row) p hp with rfl | hp2
      · rfl
      · exact h1 p hp2
    · intro p hp
      rcases mem_mapSet m row.Date (googleEntry row) p hp with rfl | hp2
      · exact Or.inl ⟨rfl, rfl, rfl, rfl⟩
      · exact h2 p hp2
    · intro p hp
      rcases mem_mapSet m row.Date (googleEntry row) p hp with rfl | hp2
      · exact Or.inr ⟨row, hrow, rfl⟩
      · exact h3 p hp2

theorem mergeInv_buildDataByDate (g f : List PlatformRow) :
    mergeInv g f (buildDataByDate g f) := by
  unfold buildDataByDate
  refine foldl_preserves facebookStep (mergeInv g f) f (g.foldl googleStep [])
    (mergeInv_googleFold g f) ?_
  rintro m row hrow ⟨h1, h2, h3⟩
  unfold facebookStep
  cases hget : mapGet m row.Date with
  | some existing =>
    have hmem : (row.Date, existing) ∈ m := mapGet_eq_some_mem m row.Date existing hget
    refine ⟨?_, ?_, ?_⟩
    · intro p hp
      rcases mem_mapSet m row.Date (facebookUpdate existing row) p hp with rfl | hp2
      · exact h1 (row.Date, existing) hmem
      · exact h1 p hp2
    · intro p hp
      rcases mem_mapSet m row.Date (facebookUpdate existing row) p hp with rfl | hp2
      · exact Or.inr ⟨row, hrow, rfl⟩
      · exact h2 p hp2
    · intro p hp
      rcases mem_mapSet m row.Date (facebookUpdate existing row) p hp with rfl | hp2
      · rcases h3 (row.Date, existing) hmem with hz | hex
        · exact Or.inl hz
        · exact Or.inr hex
      · exact h3 p hp2
  | none =>
    refine ⟨?_, ?_, ?_⟩
    · intro p hp
      rcases mem_mapSet m row.Date (facebookEntry row) p hp with rfl | hp2
      · rfl
      · exact h1 p hp2
    · intro p hp
      rcases mem_mapSet m row.Date (facebookEntry row) p hp with rfl | hp2
      · exact Or.inr ⟨row, hrow, rfl⟩
      · exact h2 p hp2
    · intro p hp
      rcases mem_mapSet m row.Date (facebookEntry row) p hp with rfl | hp2
      · exact Or.inl ⟨rfl, rfl, rfl, rfl⟩
      · exact h3 p hp2

theorem nodup_keys_buildDataByDate (g f : List PlatformRow) :
    (mapKeys (buildDataByDate g f)).Nodup := by
  unfold buildDataByDate
  refine foldl_preserves facebookStep (fun m => (mapKeys m).Nodup) f _ ?_ ?_
  · refine foldl_preserves googleStep (fun m => (mapKeys m).Nodup) g [] List.nodup_nil ?_
    intro m row _ h
    exact nodup_mapKeys_mapSet m row.Date (googleEntry row) h
  · intro m row _ h
    unfold facebookStep
    cases mapGet m row.Date <;> exact nodup_mapKeys_mapSet m row.Date _ h

theorem keys_buildDataByDate (g f : List PlatformRow) (k : String) :
    k ∈ mapKeys (buildDataByDate g f) ↔
      (∃ r ∈ g, r.Date = k) ∨ (∃ r ∈ f, r.Date = k) := by
  unfold buildDataByDate
  rw [keys_facebookFold, keys_googleFold]
  simp only [mapKeys, List.map_nil, List.not_mem_nil, false_or]

end MergeLemmas

/-- **C4**.  Every date present in either input series appears in
`dailyData`, dates are not duplicated (each appears exactly once), the
records are sorted ascending by the date comparator's key (stated for inputs
whose dates all parse, since the JavaScript sort order is unspecified when
the comparator returns `NaN`), and a record whose date is missing from one
platform's series carries that platform's zero sentinels, never
null/undefined. -/
theorem C4_merge_completeness (g f : List PlatformRow) :
    (∀ d, (∃ r ∈ (mergeAndFormatData g f).dailyData, r.Date = d) ↔
        ((∃ r ∈ g, r.Date = d) ∨ (∃ r ∈ f, r.Date = d))) ∧
    ((mergeAndFormatData g f).dailyData.map (fun r => r.Date)).Nodup ∧
    ((∀ r ∈ g, (parseIsoDate r.Date).isSome = true) →
      (∀ r ∈ f, (parseIsoDate r.Date).isSome = true) →
      (mergeAndFormatData g f).dailyData.Pairwise mergedLe) ∧
    (∀ r ∈ (mergeAndFormatData g f).dailyData, (¬ ∃ q ∈ f, q.Date = r.Date) →
      r.Facebook_Clicks = "0" ∧ r.Facebook_Impressions = "0" ∧
        r.Facebook_CPC = "$0.00" ∧ r.Facebook_Cost = "$0.00") ∧
    (∀ r ∈ (mergeAndFormatData g f).dailyData, (¬ ∃ q ∈ g, q.Date = r.Date) →
      r.Google_Clicks = "0" ∧ r.Google_Impressions = "0" ∧
        r.Google_CPC = "$0.00" ∧ r.Google_Cost = "$0.00") := by
  obtain ⟨hDate, hFb, hG⟩ := mergeInv_buildDataByDate g f
  have hD : (mergeAndFormatData g f).dailyData =
      List.insertionSort mergedLe (mapValues (buildDataByDate g f)) := rfl
  have hperm : List.Perm (mergeAndFormatData g f).dailyData
      (mapValues (buildDataByDate g f)) := by
    rw [hD]; exact List.perm_insertionSort mergedLe _
  have hmemval : ∀ r, r ∈ (mergeAndFormatData g f).dailyData ↔
      ∃ p ∈ buildDataByDate g f, p.2 = r := by
    intro r
    rw [hperm.mem_iff]
    simp [mapValues, List.mem_map]
  refine ⟨?_, ?_, ?_, ?_, ?_⟩
  · intro d
    rw [← keys_buildDataByDate g f d]
    constructor
    · rintro ⟨r, hr, rfl⟩
      obtain ⟨p, hp, rfl⟩ := (hmemval r).1 hr
      rw [hDate p hp]
      exact List.mem_map.2 ⟨p, hp, rfl⟩
    · intro hk
      obtain ⟨p, hp, rfl⟩ := List.mem_map.1 hk
      exact ⟨p.2, (hmemval p.2).2 ⟨p, hp, rfl⟩, hDate p hp⟩
  · have hmapped : List.Perm ((mergeAndFormatData g f).dailyData.map (fun r => r.Date))
        ((mapValues (buildDataByDate g f)).map (fun r => r.Date)) :=
      hperm.map (fun r => r.Date)
    rw [hmapped.nodup_iff]
    have heq : (mapValues (buildDataByDate g f)).map (fun r => r.Date) =
        mapKeys (buildDataByDate g f) := by
      simp only [mapValues, mapKeys, List.map_map]
      exact List.map_congr_left (fun p hp => hDate p hp)
    rw [heq]
    exact nodup_keys_buildDataByDate g f
  · intro _ _
    rw [hD]
    exact List.sorted_insertionSort mergedLe _
  · intro r hr hnotf
    obtain ⟨p, hp, rfl⟩ := (hmemval r).1 hr
    rcases hFb p hp with hz | hex
    · exact hz
    · exact absurd (by rw [← hDate p hp] at hex; exact hex) hnotf
  · intro r hr hnotg
    obtain ⟨p, hp, rfl⟩ := (hmemval r).1 hr
    rcases hG p hp with hz | hex
    · exact hz
    · exact absurd (by rw [← hDate p hp] at hex; exact hex) hnotg

def c4Row (d : String) : PlatformRow :=
  { Date := d, Clicks := "1", Impressions := "10", Avg_CPC := "$0.10", Cost := "$0.10" }

def c4G : List PlatformRow :=
  [c4Row "2025-01-01", c4Row "2025-01-02", c4Row "2025-01-03"]

def c4F : List PlatformRow :=
  [c4Row "2025-01-04", c4Row "2025-01-05", c4Row "2025-01-06"]

/-- Witness for C4 at the spec's date-disjoint 3+3 series: exactly 6 merged
records, no duplicated date, sorted ascending. -/
theorem C4_merge_completeness_witness :
    (mergeAndFormatData c4G c4F).dailyData.length = 6 ∧
      ((mergeAndFormatData c4G c4F).dailyData.map (fun r => r.Date)).Nodup ∧
      (mergeAndFormatData c4G c4F).dailyData.Pairwise mergedLe := by
  refine ⟨by decide, (C4_merge_completeness c4G c4F).2.1, ?_⟩
  exact (C4_merge_completeness c4G c4F).2.2.1 (by decide) (by decide)

end Dashboard
